import Mathlib

/-!
Shallow embedding of the vnode maintenance core of a Chord-style DHT
(source: src/vnode.go of the go-chord repository).

Identifiers are byte slices of length ceil(HashBits/8) compared
byte-lexicographically, which on equal-length big-endian slices coincides
with numeric comparison; we embed them as `Nat` below `2 ^ HashBits`.
Go pointers `*Vnode` become `Option Vnode`; a Go `error` becomes
`Option String` (with `none` for a nil error) and functions that can
also dereference a nil pointer or index out of range return a result
type with an explicit `crash` constructor.

The transport (`vn.ring.transport`) is external to this core, so each
operation takes the RPCs it issues as function-valued oracles.
-/

set_option autoImplicit false

namespace Chord

/-- A ring position: the `Vnode` struct of the source (`Id []byte`,
`Host string`), with the Id embedded as a `Nat`. -/
structure Vnode where
  Id : Nat
  Host : String
deriving DecidableEq, Repr

/-- The mutable state of `localVnode`: the embedded identity, the
successor list (length `NumSuccessors`, `nil` entries as `none`), the
finger table (length `HashBits`), the repair cursor `last_finger`, the
optional predecessor, and the configuration values the vnode reads from
`vn.ring.config`. -/
structure LocalVnode where
  self : Vnode
  successors : List (Option Vnode)
  finger : List (Option Vnode)
  last_finger : Nat
  predecessor : Option Vnode
  hashBits : Nat
  numSuccessors : Nat
deriving DecidableEq, Repr

/-- Modelled from the spec: `between(a, b, x)` is true iff `x` lies
strictly inside the arc from `a` to `b` going clockwise, excluding both
endpoints, handling wraparound when `b < a` numerically (the helper
lives in util.go, which is not part of src/). -/
def between (a b x : Nat) : Bool :=
  if b < a then a < x || x < b
  else a < x && x < b

/-- Modelled from the spec: `betweenRightIncl(a, b, x)` is the same arc
as `between` but includes the right endpoint `b`. -/
def betweenRightIncl (a b x : Nat) : Bool :=
  if b < a then a < x || x ≤ b
  else a < x && x ≤ b

/-- Modelled from the spec: `powerOffset(id, i, hashBits)` computes
`(id + 2^i) mod 2^hashBits` (util.go, not part of src/). -/
def powerOffset (id i hashBits : Nat) : Nat :=
  (id + 2 ^ i) % 2 ^ hashBits

/-- Result of `FindSuccessors`: a successful slice, an error (the Go
code returns a nil slice alongside every error), or a runtime panic
(nil-pointer dereference or out-of-range index). -/
inductive FSRes where
  | ok (nodes : List (Option Vnode))
  | err (e : String)
  | crash
deriving DecidableEq, Repr

/-- Result of a stabilization step: the updated state together with the
returned error (`none` for a nil error), or a runtime panic. -/
inductive StepRes where
  | ok (vn : LocalVnode) (e : Option String)
  | crash
deriving DecidableEq, Repr

/-- The first loop of `FindSuccessors`: `var successors int; for i ...
{ if vn.successors[i] != nil { successors = i + 1 } }` — one past the
last present index, 0 if every entry is absent. -/
def knownCount : List (Option Vnode) → Nat
  | [] => 0
  | o :: rest =>
    let r := knownCount rest
    if r = 0 then (match o with | some _ => 1 | none => 0) else r + 1

/-- The routing-exhaustion error message of `FindSuccessors`. -/
def exhaustMsg : String := "Exhausted all preceeding nodes!"

/-- The short-circuit scan of `FindSuccessors`: iterate `i` from the
given index for `rem` more iterations (the caller passes the loop bound
`max(successors-n, 1)` as the fuel, so `rem > 0` is exactly `i < bound`).
`succs.getD i none = none` covers both an out-of-range index (Go: index
panic) and a present slot holding nil (Go: nil dereference in
`vn.successors[i].Id`); both panic, hence `crash`.  On a hit the Go code
returns the slice `vn.successors[i : i+n]`, which panics when
`i + n > len(vn.successors)`. -/
def scanSC (succs : List (Option Vnode)) (selfId n key : Nat) : Nat → Nat → Option FSRes
  | _, 0 => none
  | i, rem + 1 =>
    match succs.getD i none with
    | none => some FSRes.crash
    | some s =>
      if betweenRightIncl selfId s.Id key then
        if i + n ≤ succs.length then some (FSRes.ok ((succs.drop i).take n))
        else some FSRes.crash
      else scanSC succs selfId n key (i + 1) rem

/-- The local successor-list short-circuit of `FindSuccessors`:
`for i := 0; i < max(successors-n, 1); i++ ...`.  `none` means the scan
fell through to the remote phase. -/
def shortCircuit (vn : LocalVnode) (n key : Nat) : Option FSRes :=
  scanSC vn.successors vn.self.Id n key 0 (Nat.max (knownCount vn.successors - n) 1)

/-- Modelled from the spec: the closest-preceding-node iterator
(iter_closest.go, not part of src/) yields, walking the finger table
from the highest index down and then the successor list likewise, each
present entry whose Id lies strictly between this vnode's Id and the
previous candidate (the bound starts at the lookup key and tightens to
each yielded Id, which also skips duplicates). -/
def candScan (selfId : Nat) : Nat → List Vnode → List Vnode
  | _, [] => []
  | bound, x :: rest =>
    if between selfId bound x.Id then x :: candScan selfId x.Id rest
    else candScan selfId bound rest

/-- Modelled from the spec: the finite candidate sequence produced by
the closest-preceding-node iterator for a vnode and key. -/
def closestPreceedingCandidates (vn : LocalVnode) (key : Nat) : List Vnode :=
  candScan vn.self.Id key ((vn.finger.reverse ++ vn.successors.reverse).filterMap id)

/-- The remote phase of `FindSuccessors`: try each candidate in turn
with the transport's `FindSuccessors` RPC, return the first success,
log-and-skip failures, and fail with the exhaustion error once no
candidate is left. -/
def remoteLoop (tfs : Vnode → Nat → Nat → List (Option Vnode) × Option String)
    (n key : Nat) : List Vnode → FSRes
  | [] => FSRes.err exhaustMsg
  | c :: rest =>
    match tfs c n key with
    | (res, none) => FSRes.ok res
    | (_, some _) => remoteLoop tfs n key rest

/-- `FindSuccessors(n, key)` of `localVnode`: the short-circuit scan of
the successor list, then the closest-preceding candidates by remote RPC. -/
def FindSuccessors (tfs : Vnode → Nat → Nat → List (Option Vnode) × Option String)
    (vn : LocalVnode) (n key : Nat) : FSRes :=
  match shortCircuit vn n key with
  | some r => r
  | none => remoteLoop tfs n key (closestPreceedingCandidates vn key)

/-- `checkNewSuccessor`: ask `successors[0]` for its predecessor; on RPC
failure ping it and either evict a dead successor (shift the list left,
`nil` appended at the tail) or propagate the error; on success, if the
returned candidate lies strictly between this vnode and the successor,
ping the candidate and adopt it when alive with a nil error, otherwise
return the ping's error unchanged.  When `successors[0]` is absent the
Go code hands a nil pointer (or, on an empty list, panics on the index)
to the external transport; the model treats that boundary as a fault. -/
def checkNewSuccessor (gp : Vnode → Except String (Option Vnode))
    (ping : Vnode → Bool × Option String) (vn : LocalVnode) : StepRes :=
  match vn.successors.head? with
  | some (some succ) =>
    match gp succ with
    | .error e =>
      if (ping succ).1 then StepRes.ok vn (some e)
      else StepRes.ok { vn with successors := vn.successors.tail ++ [none] } none
    | .ok maybeSuc =>
      match maybeSuc with
      | some p =>
        if between vn.self.Id succ.Id p.Id then
          if (ping p).1 = true ∧ (ping p).2 = none then
            StepRes.ok { vn with successors := vn.successors.set 0 (some p) } none
          else StepRes.ok vn (ping p).2
        else StepRes.ok vn none
      | none => StepRes.ok vn none
  | _ => StepRes.crash

/-- RPC handler `GetPredecessor`: returns the current predecessor and a
nil error. -/
def GetPredecessor (vn : LocalVnode) : Option Vnode × Option String :=
  (vn.predecessor, none)

/-- The splice loop of `notifySuccessor`: `for idx, s := range succ_list
{ if s == nil { break }; vn.successors[idx+1] = s }`, carried here with
the write position (starting at 1) as an argument. -/
def spliceLoop : List (Option Vnode) → Nat → List (Option Vnode) → List (Option Vnode)
  | succs, _, [] => succs
  | succs, _, none :: _ => succs
  | succs, i, some v :: rest => spliceLoop (succs.set i (some v)) (i + 1) rest

/-- `notifySuccessor`: notify `successors[0]` of self, propagate a
failed RPC unchanged, otherwise trim the returned list to
`NumSuccessors - 1` entries and splice it into `successors[1:]`.
As in `checkNewSuccessor`, an absent `successors[0]` reaches the
external transport as a nil target and is modelled as a fault. -/
def notifySuccessor (nrpc : Vnode → Vnode → List (Option Vnode) × Option String)
    (vn : LocalVnode) : StepRes :=
  match vn.successors.head? with
  | some (some succ) =>
    match nrpc succ vn.self with
    | (_, some e) => StepRes.ok vn (some e)
    | (succList, none) =>
      let maxSucc := vn.numSuccessors
      let trimmed := if succList.length > maxSucc - 1 then succList.take (maxSucc - 1) else succList
      StepRes.ok { vn with successors := spliceLoop vn.successors 1 trimmed } none
  | _ => StepRes.crash

/-- The acceptance condition of the `Notify` handler:
`vn.predecessor == nil || between(vn.predecessor.Id, vn.Id, maybe_pred.Id)`. -/
def notifyAccept (vn : LocalVnode) (cand : Vnode) : Bool :=
  match vn.predecessor with
  | none => true
  | some p => between p.Id vn.self.Id cand.Id

/-- RPC handler `Notify`: adopt the candidate as predecessor when
`notifyAccept` holds, and always return the current successor list
(the Go error result is always nil). -/
def Notify (vn : LocalVnode) (cand : Vnode) : LocalVnode × List (Option Vnode) :=
  (if notifyAccept vn cand then { vn with predecessor := some cand } else vn,
   vn.successors)

/-- The greedy-extension loop of `fixFingerTable`: while the next index
is below `HashBits` and its power-of-two offset is still covered by the
resolved node, write the node into that finger slot and advance the
cursor. -/
def greedyLoop (selfId : Nat) (node : Vnode) (hb : Nat)
    (finger : List (Option Vnode)) (lf : Nat) : List (Option Vnode) × Nat :=
  if _h : lf + 1 < hb then
    if betweenRightIncl selfId node.Id (powerOffset selfId (lf + 1) hb) then
      greedyLoop selfId node hb (finger.set (lf + 1) (some node)) (lf + 1)
    else (finger, lf)
  else (finger, lf)
termination_by hb - lf
decreasing_by omega

/-- `fixFingerTable`: resolve the power-of-two offset of the cursor slot
with a local `FindSuccessors(1, offset)` call.  The Go code evaluates
`node := nodes[0]` before checking the error, and `FindSuccessors`
returns a nil slice alongside every error, so the error case (and an
empty slice) panics before the `if node == nil || err != nil` guard is
reached.  On success, write the node at `finger[last_finger]`, run the
greedy extension, and advance the cursor, wrapping to 0 at `HashBits`. -/
def fixFingerTable (tfs : Vnode → Nat → Nat → List (Option Vnode) × Option String)
    (vn : LocalVnode) : StepRes :=
  let hb := vn.hashBits
  let offset := powerOffset vn.self.Id vn.last_finger hb
  match FindSuccessors tfs vn 1 offset with
  | FSRes.crash => StepRes.crash
  | FSRes.err _ => StepRes.crash
  | FSRes.ok nodes =>
    match nodes.head? with
    | none => StepRes.crash
    | some none => StepRes.ok vn none
    | some (some node) =>
      let f1 := vn.finger.set vn.last_finger (some node)
      let r := greedyLoop vn.self.Id node hb f1 vn.last_finger
      let lf := if r.2 + 1 = hb then 0 else r.2 + 1
      StepRes.ok { vn with finger := r.1, last_finger := lf } none

/-- `checkPredecessor`: when a predecessor is known, ping it; an
RPC-level error is propagated with the state unchanged, a definitive
"not alive" answer clears the predecessor, and an alive answer (or no
known predecessor) changes nothing and returns a nil error. -/
def checkPredecessor (ping : Vnode → Bool × Option String) (vn : LocalVnode) : StepRes :=
  match vn.predecessor with
  | none => StepRes.ok vn none
  | some p =>
    match (ping p).2 with
    | some e => StepRes.ok vn (some e)
    | none =>
      if (ping p).1 then StepRes.ok vn none
      else StepRes.ok { vn with predecessor := none } none

/-- Observable outcome of one `stabilize` invocation: the final state,
whether a next cycle was scheduled (the deferred `vn.schedule()` also
runs while a panic unwinds), whether `vn.stabilized` was updated,
the step errors logged in order, and whether a step panicked. -/
structure StabOutcome where
  state : LocalVnode
  scheduled : Bool
  stabilizedSet : Bool
  logged : List String
  crashed : Bool
deriving DecidableEq, Repr

/-- Errors produced by one step, as appended to the log. -/
def logOf : Option String → List String
  | none => []
  | some e => [e]

/-- `stabilize`: return at once when the ring is shutting down (no
reschedule); otherwise run `checkNewSuccessor`, `notifySuccessor`,
`fixFingerTable` and `checkPredecessor` in order, logging each step's
error, then record the stabilized timestamp.  The deferred reschedule
runs on every non-shutdown path, including panic unwinding; a panic
aborts the remaining steps and the timestamp update. -/
def stabilize (shutdown : Bool)
    (gp : Vnode → Except String (Option Vnode))
    (ping : Vnode → Bool × Option String)
    (nrpc : Vnode → Vnode → List (Option Vnode) × Option String)
    (tfs : Vnode → Nat → Nat → List (Option Vnode) × Option String)
    (vn : LocalVnode) : StabOutcome :=
  if shutdown then ⟨vn, false, false, [], false⟩
  else
    match checkNewSuccessor gp ping vn with
    | StepRes.crash => ⟨vn, true, false, [], true⟩
    | StepRes.ok v1 e1 =>
      match notifySuccessor nrpc v1 with
      | StepRes.crash => ⟨v1, true, false, logOf e1, true⟩
      | StepRes.ok v2 e2 =>
        match fixFingerTable tfs v2 with
        | StepRes.crash => ⟨v2, true, false, logOf e1 ++ logOf e2, true⟩
        | StepRes.ok v3 e3 =>
          match checkPredecessor ping v3 with
          | StepRes.crash => ⟨v3, true, false, logOf e1 ++ logOf e2 ++ logOf e3, true⟩
          | StepRes.ok v4 e4 =>
            ⟨v4, true, true, logOf e1 ++ logOf e2 ++ logOf e3 ++ logOf e4, false⟩

/-! ### Concrete fixtures: a mod-64 ring (HashBits = 6) with Ids 10, 20, 30 -/

def node10 : Vnode := ⟨10, "host10"⟩
def node15 : Vnode := ⟨15, "host15"⟩
def node20 : Vnode := ⟨20, "host20"⟩
def node30 : Vnode := ⟨30, "host30"⟩
def node50 : Vnode := ⟨50, "host50"⟩

/-- Node 10 of the 3-node scenario: successors `[20, 30]`. -/
def vn10 : LocalVnode :=
  { self := node10, successors := [some node20, some node30],
    finger := [none, none, none, none, none, none],
    last_finger := 0, predecessor := none, hashBits := 6, numSuccessors := 2 }

/-- Node 20 of the 3-node scenario: successors `[30, 10]`. -/
def vn20 : LocalVnode :=
  { self := node20, successors := [some node30, some node10],
    finger := [none, none, none, none, none, none],
    last_finger := 0, predecessor := none, hashBits := 6, numSuccessors := 2 }

/-- A transport whose every remote `FindSuccessors` RPC fails. -/
def failTfs : Vnode → Nat → Nat → List (Option Vnode) × Option String :=
  fun _ _ _ => ([], some "transport down")

/-- A transport in which only node 20 is reachable and answers with its
own local short-circuit result. -/
def ringTfs : Vnode → Nat → Nat → List (Option Vnode) × Option String :=
  fun t n key =>
    if t = node20 then
      match shortCircuit vn20 n key with
      | some (FSRes.ok l) => (l, none)
      | _ => ([], some "transport down")
    else ([], some "transport down")

/-- Successor list with a present covering entry followed by an absent
slot inside the returned slice. -/
def vnGap : LocalVnode :=
  { self := node10, successors := [some node20, some node30, none, some node50],
    finger := [none, none, none, none, none, none],
    last_finger := 0, predecessor := none, hashBits := 6, numSuccessors := 4 }

/-- A vnode whose finger table is empty of entries and whose only
successor does not cover the cursor's power-of-two offset (26), so the
resolve step must go remote. -/
def vnStuck : LocalVnode :=
  { self := node10, successors := [some node20],
    finger := [none, none, none, none, none, none],
    last_finger := 4, predecessor := none, hashBits := 6, numSuccessors := 1 }

/-- A vnode with every successor slot absent. -/
def vnDead : LocalVnode :=
  { self := node10, successors := [none, none],
    finger := [none, none, none, none, none, none],
    last_finger := 0, predecessor := none, hashBits := 6, numSuccessors := 2 }

/-- `vn10` with a known predecessor. -/
def vnPred : LocalVnode := { vn10 with predecessor := some node30 }

/-- A benign `GetPredecessor` oracle: the successor knows no predecessor. -/
def gp0 : Vnode → Except String (Option Vnode) := fun _ => Except.ok none
/-- A `GetPredecessor` oracle that fails. -/
def gpFail : Vnode → Except String (Option Vnode) := fun _ => Except.error "rpc fail"
/-- A `GetPredecessor` oracle reporting node 15 (strictly between 10 and 20). -/
def gp15 : Vnode → Except String (Option Vnode) := fun _ => Except.ok (some node15)
/-- A ping oracle answering alive with a nil error. -/
def pingAlive : Vnode → Bool × Option String := fun _ => (true, none)
/-- A ping oracle failing with an error and reporting not alive. -/
def pingDead : Vnode → Bool × Option String := fun _ => (false, some "dead")
/-- A ping oracle answering a definitive "not alive" with a nil error. -/
def pingNotAlive : Vnode → Bool × Option String := fun _ => (false, none)
/-- A `Notify` RPC oracle returning an empty successor list. -/
def nrpc0 : Vnode → Vnode → List (Option Vnode) × Option String := fun _ _ => ([], none)

/-! ### Theorems -/

/-- C4: when the `GetPredecessor` RPC to `successors[0]` fails, a failed
liveness probe shifts the successor list left by one with an absent slot
appended and returns no error, while a successful probe returns the RPC
error with no state change. -/
theorem c4_dead_successor_eviction
    (gp : Vnode → Except String (Option Vnode)) (ping : Vnode → Bool × Option String)
    (vn : LocalVnode) (succ : Vnode) (e : String)
    (h0 : vn.successors.head? = some (some succ))
    (hrpc : gp succ = Except.error e) :
    ((ping succ).1 = false →
      checkNewSuccessor gp ping vn =
        StepRes.ok { vn with successors := vn.successors.tail ++ [none] } none)
  ∧ ((ping succ).1 = true → checkNewSuccessor gp ping vn = StepRes.ok vn (some e)) := by
  constructor <;> intro hp <;> simp [checkNewSuccessor, h0, hrpc, hp]

/-- C4 witness: node 10 with successor 20, a failing RPC and a dead
probe evict the successor. -/
theorem c4_witness :
    checkNewSuccessor gpFail pingDead vn10 =
      StepRes.ok { vn10 with successors := vn10.successors.tail ++ [none] } none :=
  (c4_dead_successor_eviction gpFail pingDead vn10 node20 "rpc fail" rfl rfl).1 rfl

/-- C5: when the `GetPredecessor` RPC succeeds with a candidate strictly
between this vnode and `successors[0]`, a live probe with a nil error
replaces `successors[0]` by the candidate, and any other probe outcome
returns the probe's error value unchanged with no mutation. -/
theorem c5_closer_successor_adoption
    (gp : Vnode → Except String (Option Vnode)) (ping : Vnode → Bool × Option String)
    (vn : LocalVnode) (succ p : Vnode)
    (h0 : vn.successors.head? = some (some succ))
    (hrpc : gp succ = Except.ok (some p))
    (hbtw : between vn.self.Id succ.Id p.Id = true) :
    (((ping p).1 = true ∧ (ping p).2 = none) →
      checkNewSuccessor gp ping vn =
        StepRes.ok { vn with successors := vn.successors.set 0 (some p) } none)
  ∧ (¬((ping p).1 = true ∧ (ping p).2 = none) →
      checkNewSuccessor gp ping vn = StepRes.ok vn (ping p).2) := by
  constructor <;> intro hp <;> simp [checkNewSuccessor, h0, hrpc, hbtw, hp]

/-- C5 witness: node 10 with successor 20 adopts the live candidate 15. -/
theorem c5_witness :
    checkNewSuccessor gp15 pingAlive vn10 =
      StepRes.ok { vn10 with successors := vn10.successors.set 0 (some node15) } none :=
  (c5_closer_successor_adoption gp15 pingAlive vn10 node20 node15 rfl rfl (by decide)).1
    ⟨rfl, rfl⟩

/-- C6: the `Notify` handler always returns the current successor list
and leaves it unchanged; it adopts the candidate as predecessor exactly
under the acceptance condition (no known predecessor, or the candidate
strictly between the current predecessor and this vnode) and otherwise
leaves the predecessor unchanged. -/
theorem c6_notify_handler (vn : LocalVnode) (cand : Vnode) :
    (Notify vn cand).2 = vn.successors
  ∧ (Notify vn cand).1.successors = vn.successors
  ∧ (notifyAccept vn cand = true → (Notify vn cand).1.predecessor = some cand)
  ∧ (notifyAccept vn cand = false → (Notify vn cand).1.predecessor = vn.predecessor)
  ∧ (vn.predecessor ≠ some cand →
      ((Notify vn cand).1.predecessor = some cand ↔ notifyAccept vn cand = true)) := by
  refine ⟨rfl, ?_, ?_, ?_, ?_⟩
  · by_cases h : notifyAccept vn cand <;> simp [Notify, h]
  · intro h; simp [Notify, h]
  · intro h; simp [Notify, h]
  · intro hne
    constructor
    · intro h
      by_cases ha : notifyAccept vn cand
      · exact ha
      · rw [Notify] at h; rw [if_neg (by simp [ha])] at h; exact absurd h hne
    · intro h; simp [Notify, h]

/-- C6 witness: node 10 with no known predecessor accepts candidate 30. -/
theorem c6_witness : (Notify vn10 node30).1.predecessor = some node30 :=
  (c6_notify_handler vn10 node30).2.2.1 rfl

/-- C7: `checkPredecessor` does nothing and returns no error when no
predecessor is known; with a known predecessor it clears the field
exactly on a nil-error "not alive" probe, propagates a probe error with
the field unchanged, and changes nothing on a nil-error alive probe. -/
theorem c7_check_predecessor (ping : Vnode → Bool × Option String) (vn : LocalVnode) :
    (vn.predecessor = none → checkPredecessor ping vn = StepRes.ok vn none)
  ∧ (∀ p, vn.predecessor = some p →
      (((ping p).2 = none ∧ (ping p).1 = false) →
        checkPredecessor ping vn = StepRes.ok { vn with predecessor := none } none)
    ∧ (∀ e, (ping p).2 = some e → checkPredecessor ping vn = StepRes.ok vn (some e))
    ∧ (((ping p).2 = none ∧ (ping p).1 = true) →
        checkPredecessor ping vn = StepRes.ok vn none)) := by
  refine ⟨fun h => by simp [checkPredecessor, h], fun p hp => ⟨?_, ?_, ?_⟩⟩
  · intro ⟨he, ha⟩; simp [checkPredecessor, hp, he, ha]
  · intro e he; simp [checkPredecessor, hp, he]
  · intro ⟨he, ha⟩; simp [checkPredecessor, hp, he, ha]

/-- C7 witness: a definitive "not alive" answer clears the predecessor. -/
theorem c7_witness :
    checkPredecessor pingNotAlive vnPred = StepRes.ok { vnPred with predecessor := none } none :=
  ((c7_check_predecessor pingNotAlive vnPred).2 node30 rfl).1 ⟨rfl, rfl⟩

/-- An all-absent successor list counts as zero known successors. -/
theorem knownCount_eq_zero (l : List (Option Vnode)) (h : ∀ o ∈ l, o = none) :
    knownCount l = 0 := by
  induction l with
  | nil => rfl
  | cons o rest ih =>
    have ho : o = none := h o (by simp)
    have hr : knownCount rest = 0 := ih fun x hx => h x (by simp [hx])
    simp [knownCount, hr, ho]

/-- C10: with every successor slot absent, the short-circuit scan bound
`max(successors-n, 1)` is still 1, so `FindSuccessors` dereferences the
absent entry at index 0 unguarded and crashes instead of returning an
error, for every transport, count and key. -/
theorem c10_all_absent_crash (tfs : Vnode → Nat → Nat → List (Option Vnode) × Option String)
    (vn : LocalVnode) (n key : Nat) (h : ∀ o ∈ vn.successors, o = none) :
    FindSuccessors tfs vn n key = FSRes.crash := by
  have hk : knownCount vn.successors = 0 := knownCount_eq_zero _ h
  have hsc : shortCircuit vn n key = some FSRes.crash := by
    unfold shortCircuit
    rw [hk, Nat.zero_sub]
    cases hs : vn.successors with
    | nil => simp [scanSC]
    | cons o rest =>
      have ho : o = none := h o (by rw [hs]; simp)
      simp [scanSC, ho]
  unfold FindSuccessors
  rw [hsc]

/-- C10 witness: node 10 with both successor slots absent crashes on a
lookup for key 25. -/
theorem c10_witness : FindSuccessors failTfs vnDead 1 25 = FSRes.crash :=
  c10_all_absent_crash failTfs vnDead 1 25 (by decide)

/-- C1: a state on which the `FindSuccessors` resolve step inside
`fixFingerTable` fails (node 10, lone successor 20 not covering offset
26, no finger entries, every remote RPC failing): `FindSuccessors`
returns the routing-exhaustion error with a nil slice, and
`fixFingerTable` evaluates `nodes[0]` before its error check, so it
panics instead of returning the error. -/
theorem c1_resolve_error_panics :
    FindSuccessors failTfs vnStuck 1
        (powerOffset vnStuck.self.Id vnStuck.last_finger vnStuck.hashBits) =
      FSRes.err exhaustMsg
  ∧ fixFingerTable failTfs vnStuck = StepRes.crash := by decide

/-- C2 counterexample: at node 10 with successors `[20, 30]` the
short-circuit scan bound is `max(2-1, 1) = 1`, so only successor 20 is
examined and key 25 is not covered locally; with no successful remote
RPC the lookup fails outright, hence the answer 30 cannot come from the
local short-circuit. -/
theorem c2_counterexample :
    shortCircuit vn10 1 25 = none
  ∧ FindSuccessors failTfs vn10 1 25 = FSRes.err exhaustMsg := by decide

/-- C2 (amended): the lookup for key 25 at node 10 resolves to vnode 30,
but through the remote phase: the closest-preceding candidate is node 20
and the transport's `FindSuccessors` RPC to it (answered from node 20's
own successor list `[30, 10]`) returns vnode 30. -/
theorem c2_remote_resolution :
    FindSuccessors ringTfs vn10 1 25 = FSRes.ok [some node30]
  ∧ closestPreceedingCandidates vn10 25 = [node20]
  ∧ ringTfs node20 1 25 = ([some node30], none) := by decide

/-- C8: a non-shutdown stabilize cycle on `vnStuck` (with every remote
`FindSuccessors` RPC failing) panics inside `fixFingerTable`: the next
cycle is still scheduled by the deferred action, but `checkPredecessor`
never runs and the stabilized timestamp is not recorded — the cycle does
not log-and-continue past the failing step.  A shutdown invocation, by
contrast, returns without scheduling. -/
theorem c8_stabilize_panic :
    stabilize false gp0 pingAlive nrpc0 failTfs vnStuck =
      { state := vnStuck, scheduled := true, stabilizedSet := false,
        logged := [], crashed := true }
  ∧ stabilize true gp0 pingAlive nrpc0 failTfs vnStuck =
      { state := vnStuck, scheduled := false, stabilizedSet := false,
        logged := [], crashed := false } := by decide

/-- A successful short-circuit scan starting at index `i` found some
index `j ≥ i` holding a present successor that right-inclusively covers
the key, and returned the raw slice `successors[j : j+n]`. -/
theorem scanSC_ok_char (succs : List (Option Vnode)) (selfId n key : Nat) :
    ∀ rem i l, scanSC succs selfId n key i rem = some (FSRes.ok l) →
      ∃ j, i ≤ j ∧ j + n ≤ succs.length ∧ l = (succs.drop j).take n ∧
        ∃ s, succs.getD j none = some s ∧ betweenRightIncl selfId s.Id key = true := by
  intro rem
  induction rem with
  | zero => intro i l h; simp [scanSC] at h
  | succ rem ih =>
    intro i l h
    unfold scanSC at h
    split at h
    · simp at h
    · rename_i s hg
      split at h
      · rename_i hb
        split at h
        · rename_i hlen
          simp only [Option.some.injEq, FSRes.ok.injEq] at h
          exact ⟨i, Nat.le_refl i, hlen, h.symm, s, hg, hb⟩
        · simp at h
      · rename_i hb
        obtain ⟨j, hij, hrest⟩ := ih (i + 1) l h
        exact ⟨j, by omega, hrest⟩

/-- The remote phase returns the first candidate's successful RPC answer
verbatim, or the routing-exhaustion error once every candidate failed. -/
theorem remoteLoop_char (tfs : Vnode → Nat → Nat → List (Option Vnode) × Option String)
    (n key : Nat) :
    ∀ cands, (∃ c ∈ cands, ∃ r, tfs c n key = (r, none) ∧
        remoteLoop tfs n key cands = FSRes.ok r)
      ∨ remoteLoop tfs n key cands = FSRes.err exhaustMsg := by
  intro cands
  induction cands with
  | nil => right; rfl
  | cons c rest ih =>
    cases ht : tfs c n key with
    | mk res e =>
      cases e with
      | none => exact Or.inl ⟨c, by simp, res, ht, by simp [remoteLoop, ht]⟩
      | some e₀ =>
        have hred : remoteLoop tfs n key (c :: rest) = remoteLoop tfs n key rest := by
          simp [remoteLoop, ht]
        rcases ih with ⟨c₁, hc₁, r, hr, he⟩ | he
        · exact Or.inl ⟨c₁, by simp [hc₁], r, hr, by rw [hred]; exact he⟩
        · exact Or.inr (by rw [hred]; exact he)

/-- C3 (amended): when the short-circuit scan returns a slice, the
result is the raw slice `successors[j : j+n]` of length exactly n,
whose entries are all present provided the n slots starting at the
covering index j are all present (an absent slot inside the window is
returned as a gap); when the scan falls through, the lookup returns a
candidate's successful remote answer verbatim or fails with the
routing-exhaustion error. -/
theorem c3_slice_and_remote_cases
    (tfs : Vnode → Nat → Nat → List (Option Vnode) × Option String)
    (vn : LocalVnode) (n key : Nat) :
    (∀ r, shortCircuit vn n key = some r → FindSuccessors tfs vn n key = r)
  ∧ (∀ l, shortCircuit vn n key = some (FSRes.ok l) →
      ∃ j, j + n ≤ vn.successors.length ∧ l = (vn.successors.drop j).take n ∧
        l.length = n ∧
        ((∀ m, m < n → vn.successors.getD (j + m) none ≠ none) → ∀ x ∈ l, x ≠ none))
  ∧ (shortCircuit vn n key = none →
      (∃ c ∈ closestPreceedingCandidates vn key, ∃ r, tfs c n key = (r, none) ∧
          FindSuccessors tfs vn n key = FSRes.ok r)
      ∨ FindSuccessors tfs vn n key = FSRes.err exhaustMsg) := by
  refine ⟨?_, ?_, ?_⟩
  · intro r h; simp [FindSuccessors, h]
  · intro l h
    obtain ⟨j, _, hjn, hl, s, hgd, hb⟩ := scanSC_ok_char vn.successors vn.self.Id n key _ 0 l h
    refine ⟨j, hjn, hl, ?_, ?_⟩
    · subst hl; simp; omega
    · intro hpres x hx
      subst hl
      obtain ⟨m, hm⟩ := List.mem_iff_getElem?.1 hx
      have hmn : m < n := by
        by_contra hge
        rw [List.getElem?_eq_none (by simp; omega)] at hm
        exact Option.noConfusion hm
      rw [List.getElem?_take_of_lt hmn, List.getElem?_drop] at hm
      have hne := hpres m hmn
      rw [List.getD_eq_getElem?_getD, hm] at hne
      simpa using hne
  · intro h
    have hfs : FindSuccessors tfs vn n key =
        remoteLoop tfs n key (closestPreceedingCandidates vn key) := by
      simp [FindSuccessors, h]
    rcases remoteLoop_char tfs n key (closestPreceedingCandidates vn key) with
      ⟨c, hc, r, hr, he⟩ | he
    · exact Or.inl ⟨c, hc, r, hr, by rw [hfs]; exact he⟩
    · exact Or.inr (by rw [hfs]; exact he)

/-- C3 counterexample: node 10 with successors `[20, 30, absent, 50]`
has two present entries (30 and 50) right-inclusively covering key 25,
yet `FindSuccessors(2, 25)` returns the slice `[30, absent]` — two
entries with an absent gap, not two live entries. -/
theorem c3_counterexample :
    FindSuccessors failTfs vnGap 2 25 = FSRes.ok [some node30, none]
  ∧ ((vnGap.successors.filterMap id).filter
      (fun s => betweenRightIncl vnGap.self.Id s.Id 25)).length = 2 := by decide

/-- C3 witness: at node 10 a lookup for key 50 falls through the
short-circuit, and with every remote RPC failing the call ends in a
remote success or the routing-exhaustion error (here the latter). -/
theorem c3_witness :
    (∃ c ∈ closestPreceedingCandidates vn10 50, ∃ r, failTfs c 1 50 = (r, none) ∧
        FindSuccessors failTfs vn10 1 50 = FSRes.ok r)
    ∨ FindSuccessors failTfs vn10 1 50 = FSRes.err exhaustMsg :=
  (c3_slice_and_remote_cases failTfs vn10 1 50).2.2 (by decide)

/-- Setting one slot leaves `getD` at a different index unchanged. -/
theorem getD_set_of_ne (l : List (Option Vnode)) (i j : Nat) (a : Option Vnode)
    (h : i ≠ j) : (l.set i a).getD j none = l.getD j none := by
  rw [List.getD_eq_getElem?_getD, List.getD_eq_getElem?_getD, List.getElem?_set_ne h]

/-- Characterization of the greedy-extension loop of `fixFingerTable`:
starting below `hb` with a finger table at least `hb` long, it stops at
the last consecutive covered index `k ≥ lf`, fills slots `lf+1 .. k`
with the node, leaves every other slot and the length unchanged, and
the index after `k`, when below `hb`, is not covered. -/
theorem greedyLoop_spec (selfId : Nat) (node : Vnode) (hb : Nat) :
    ∀ fuel finger lf, hb - lf ≤ fuel → lf < hb → hb ≤ finger.length →
      lf ≤ (greedyLoop selfId node hb finger lf).2 ∧
      (greedyLoop selfId node hb finger lf).2 < hb ∧
      (∀ j, lf < j → j ≤ (greedyLoop selfId node hb finger lf).2 →
        betweenRightIncl selfId node.Id (powerOffset selfId j hb) = true ∧
        (greedyLoop selfId node hb finger lf).1.getD j none = some node) ∧
      ((greedyLoop selfId node hb finger lf).2 + 1 < hb →
        betweenRightIncl selfId node.Id
          (powerOffset selfId ((greedyLoop selfId node hb finger lf).2 + 1) hb) = false) ∧
      (∀ j, j ≤ lf ∨ (greedyLoop selfId node hb finger lf).2 < j →
        (greedyLoop selfId node hb finger lf).1.getD j none = finger.getD j none) ∧
      (greedyLoop selfId node hb finger lf).1.length = finger.length := by
  intro fuel
  induction fuel with
  | zero => intro finger lf h1 h2 _; exfalso; omega
  | succ fuel ih =>
    intro finger lf h1 h2 hlen
    by_cases hnext : lf + 1 < hb
    · by_cases hcov : betweenRightIncl selfId node.Id (powerOffset selfId (lf + 1) hb) = true
      · have heq : greedyLoop selfId node hb finger lf =
            greedyLoop selfId node hb (finger.set (lf + 1) (some node)) (lf + 1) := by
          rw [greedyLoop]; rw [dif_pos hnext, if_pos hcov]
        obtain ⟨ha, hk, hcv, hstop, hunch, hln⟩ :=
          ih (finger.set (lf + 1) (some node)) (lf + 1) (by omega) hnext (by simpa using hlen)
        rw [heq]
        refine ⟨by omega, hk, ?_, hstop, ?_, by simpa using hln⟩
        · intro j hj1 hj2
          rcases Nat.lt_or_ge (lf + 1) j with hgt | hle
          · exact hcv j hgt hj2
          · have hj : j = lf + 1 := by omega
            subst hj
            refine ⟨hcov, ?_⟩
            rw [hunch (lf + 1) (Or.inl (Nat.le_refl _)), List.getD_eq_getElem?_getD,
              List.getElem?_set_self (by omega)]
            rfl
        · intro j hj
          have hne : lf + 1 ≠ j := by omega
          rcases hj with hj | hj
          · rw [hunch j (Or.inl (by omega)), getD_set_of_ne _ _ _ _ hne]
          · rw [hunch j (Or.inr hj), getD_set_of_ne _ _ _ _ hne]
      · have heq : greedyLoop selfId node hb finger lf = (finger, lf) := by
          rw [greedyLoop]; rw [dif_pos hnext, if_neg hcov]
        rw [heq]
        refine ⟨Nat.le_refl _, h2, ?_, ?_, fun j _ => rfl, rfl⟩
        · intro j hj1 hj2; exfalso; omega
        · intro _; simpa using hcov
    · have heq : greedyLoop selfId node hb finger lf = (finger, lf) := by
        rw [greedyLoop]; rw [dif_neg hnext]
      rw [heq]
      refine ⟨Nat.le_refl _, h2, ?_, ?_, fun j _ => rfl, rfl⟩
      · intro j hj1 hj2; exfalso; omega
      · intro hc; exfalso; omega

/-- C9: after a fixFingerTable step whose resolve succeeded with a node
for slot `last_finger`, there is a last consecutive index k covered by
that node such that every slot from `last_finger` through k holds the
node, the slot after k (when below `HashBits`) is not covered, every
other finger slot is untouched, and the cursor becomes `(k+1) mod
HashBits` — at least one position forward, wrapping to 0 at `HashBits`,
so repeated successful cycles sweep the indices round-robin without
regressing. -/
theorem c9_finger_greedy_advance
    (tfs : Vnode → Nat → Nat → List (Option Vnode) × Option String)
    (vn : LocalVnode) (node : Vnode) (rest : List (Option Vnode))
    (hlf : vn.last_finger < vn.hashBits)
    (hlen : vn.finger.length = vn.hashBits)
    (hfs : FindSuccessors tfs vn 1
        (powerOffset vn.self.Id vn.last_finger vn.hashBits) = FSRes.ok (some node :: rest)) :
    ∃ vn' k, fixFingerTable tfs vn = StepRes.ok vn' none ∧
      vn.last_finger ≤ k ∧ k < vn.hashBits ∧
      (∀ j, vn.last_finger ≤ j → j ≤ k → vn'.finger.getD j none = some node) ∧
      (∀ j, vn.last_finger < j → j ≤ k →
        betweenRightIncl vn.self.Id node.Id (powerOffset vn.self.Id j vn.hashBits) = true) ∧
      (k + 1 < vn.hashBits →
        betweenRightIncl vn.self.Id node.Id
          (powerOffset vn.self.Id (k + 1) vn.hashBits) = false) ∧
      vn'.last_finger = (k + 1) % vn.hashBits ∧
      (∀ j, j < vn.last_finger ∨ k < j → vn'.finger.getD j none = vn.finger.getD j none) ∧
      vn'.successors = vn.successors ∧ vn'.predecessor = vn.predecessor := by
  obtain ⟨ha, hk, hcv, hstop, hunch, hln⟩ :=
    greedyLoop_spec vn.self.Id node vn.hashBits (vn.hashBits - vn.last_finger)
      (vn.finger.set vn.last_finger (some node)) vn.last_finger
      (Nat.le_refl _) hlf (by simp [hlen])
  have hfix : fixFingerTable tfs vn =
      StepRes.ok
        { vn with
          finger := (greedyLoop vn.self.Id node vn.hashBits
            (vn.finger.set vn.last_finger (some node)) vn.last_finger).1,
          last_finger :=
            if (greedyLoop vn.self.Id node vn.hashBits
                (vn.finger.set vn.last_finger (some node)) vn.last_finger).2 + 1 =
              vn.hashBits
            then 0
            else (greedyLoop vn.self.Id node vn.hashBits
              (vn.finger.set vn.last_finger (some node)) vn.last_finger).2 + 1 } none := by
    simp only [fixFingerTable, hfs, List.head?]
  refine ⟨_, (greedyLoop vn.self.Id node vn.hashBits
      (vn.finger.set vn.last_finger (some node)) vn.last_finger).2,
    hfix, ha, hk, ?_, fun j h1 h2 => (hcv j h1 h2).1, hstop, ?_, ?_, rfl, rfl⟩
  · intro j h1 h2
    rcases Nat.eq_or_lt_of_le h1 with h1 | h1
    · rw [← h1]
      rw [hunch vn.last_finger (Or.inl (Nat.le_refl _)), List.getD_eq_getElem?_getD,
        List.getElem?_set_self (by omega)]
      rfl
    · exact (hcv j h1 h2).2
  · dsimp only
    split
    · rename_i h; rw [h, Nat.mod_self]
    · rename_i h
      have hlt : (greedyLoop vn.self.Id node vn.hashBits
          (vn.finger.set vn.last_finger (some node)) vn.last_finger).2 + 1 < vn.hashBits := by
        omega
      rw [Nat.mod_eq_of_lt hlt]
  · intro j hj
    have hne : vn.last_finger ≠ j := by omega
    rcases hj with hj | hj
    · rw [hunch j (Or.inl (by omega)), getD_set_of_ne _ _ _ _ hne]
    · rw [hunch j (Or.inr hj), getD_set_of_ne _ _ _ _ hne]

/-- C9 witness: at node 10 with cursor 0, the offset 11 is covered by
successor 20 through the local short-circuit, and the step yields the
characterized greedy update. -/
theorem c9_witness :
    ∃ vn' k, fixFingerTable failTfs vn10 = StepRes.ok vn' none ∧
      vn10.last_finger ≤ k ∧ k < vn10.hashBits ∧
      (∀ j, vn10.last_finger ≤ j → j ≤ k → vn'.finger.getD j none = some node20) ∧
      (∀ j, vn10.last_finger < j → j ≤ k →
        betweenRightIncl vn10.self.Id node20.Id
          (powerOffset vn10.self.Id j vn10.hashBits) = true) ∧
      (k + 1 < vn10.hashBits →
        betweenRightIncl vn10.self.Id node20.Id
          (powerOffset vn10.self.Id (k + 1) vn10.hashBits) = false) ∧
      vn'.last_finger = (k + 1) % vn10.hashBits ∧
      (∀ j, j < vn10.last_finger ∨ k < j → vn'.finger.getD j none = vn10.finger.getD j none) ∧
      vn'.successors = vn10.successors ∧ vn'.predecessor = vn10.predecessor :=
  c9_finger_greedy_advance failTfs vn10 node20 [] (by decide) (by decide) (by decide)

end Chord
